import Mathlib

/-!
# Little Library — verification of the client-side book logic

Shallow embedding of the Little Library web application's client code
(`index.js`, `addBook.js`, the detail-page script and the shared
`library.js` helpers) together with proofs about the embedded
operations.  JavaScript strings are modelled as `List Char`, JS objects
with possibly missing string fields as structures with `Option` fields,
and each controller action as a pure function from its inputs (the
freshly loaded collection, the URL identifier, dialog outcomes, the
network outcome) to the data it would send to the persistence layer
plus the user-visible effects (notification, navigation, focus).
-/

namespace LittleLibrary


/-- Characters of a JavaScript string. -/
abbrev Str := List Char

/-- JS `String.prototype.toLowerCase`, modelled on the ASCII range
(`Char.toLower` lowers exactly `'A'..'Z'`, as JS does on ASCII input). -/
def toLowerStr (s : Str) : Str := s.map Char.toLower

/-- Whitespace recognised by JS `trim` (ASCII fragment: space, tab,
line feed, carriage return, vertical tab, form feed). -/
def isWsChar (c : Char) : Bool :=
  c == ' ' || c == '\t' || c == '\n' || c == '\r' || c == '\x0b' || c == '\x0c'

/-- JS `String.prototype.trim`: strip whitespace from both ends. -/
def trimStr (s : Str) : Str :=
  ((s.dropWhile isWsChar).reverse.dropWhile isWsChar).reverse

/-- `leadsWith n h` — the string `h` starts with `n`
(JS `String.prototype.startsWith`). -/
def leadsWith : Str → Str → Bool
  | [], _ => true
  | _ :: _, [] => false
  | a :: as, b :: bs => a == b && leadsWith as bs

/-- `hasSubstr needle hay` — JS `hay.includes(needle)`:
`needle` occurs contiguously somewhere in `hay`. -/
def hasSubstr (n : Str) : Str → Bool
  | [] => n.isEmpty
  | c :: h => leadsWith n (c :: h) || hasSubstr n h

/-- JS truthiness of a possibly-missing string field:
`undefined` and the empty string are falsy, everything else truthy. -/
def truthyStr : Option Str → Bool
  | none => false
  | some s => !s.isEmpty

/-- A book record as stored in `books.json` and handled by the client.
Every field other than `id` may be absent on a raw record
(`Option`); `id` is the `Date.now()` timestamp assigned at creation. -/
structure Book where
  id : Nat
  title : Option Str := none
  author : Option Str := none
  description : Option Str := none
  coverImage : Option Str := none
  review : Option Str := none
  tags : Option (List Str) := none
  status : Option Str := none
  dateAdded : Option Str := none
  deriving Repr, DecidableEq

/-! ## index.js — load filter and search engine -/

/-- The validity predicate of `loadBooksForIndex` in index.js:
`book && typeof book === 'object' && book.title && book.title.trim()`.
Records are always objects here, so the check is that the title is
present, non-empty, and non-empty after trimming. -/
def isValidBook (b : Book) : Bool :=
  truthyStr b.title && truthyStr (b.title.map trimStr)

/-- index.js `loadBooksForIndex`, pure core: filter the fetched
collection down to the valid records (the global `books` variable). -/
def loadBooksForIndex (allBooks : List Book) : List Book :=
  allBooks.filter isValidBook

/-- The filter predicate inside index.js `searchBooks`:
`searchTerm = query.toLowerCase()`; the book matches if the term occurs
in the lowered title, in the lowered author (the author field must be
truthy first, per `book.author && …`), or in some lowered tag
(`book.tags && book.tags.some(…)`; an empty array is truthy in JS).
index.js only ever calls this on validated books, whose `title` is
present, so the `getD []` default for a missing title is never hit
there (the raw JS would throw on `undefined.toLowerCase()`). -/
def bookMatches (query : Str) (b : Book) : Bool :=
  let searchTerm := toLowerStr query
  let titleMatch := hasSubstr searchTerm (toLowerStr (b.title.getD []))
  let authorMatch := truthyStr b.author &&
    hasSubstr searchTerm (toLowerStr (b.author.getD []))
  let tagMatch := b.tags.isSome &&
    (b.tags.getD []).any (fun t => hasSubstr searchTerm (toLowerStr t))
  titleMatch || authorMatch || tagMatch

/-- index.js `searchBooks`, pure core: `if (!query.trim())` the full
collection is shown (`updateDisplay` renders the global `books`),
otherwise the collection is filtered by `bookMatches`. -/
def searchBooks (books : List Book) (query : Str) : List Book :=
  if (trimStr query).isEmpty then books
  else books.filter (bookMatches query)

/-- The claim's formulation of a search hit: the query is a
case-insensitive substring of the title, of the author, or of some tag
of the book. -/
def claimMatches (query : Str) (b : Book) : Prop :=
  (∃ t, b.title = some t ∧ hasSubstr (toLowerStr query) (toLowerStr t) = true) ∨
  (∃ a, b.author = some a ∧ hasSubstr (toLowerStr query) (toLowerStr a) = true) ∨
  (∃ ts, b.tags = some ts ∧ ∃ t ∈ ts, hasSubstr (toLowerStr query) (toLowerStr t) = true)

/-! ## index.js — grid renderer (`updateBookshelf`) -/

/-- JS `Array.prototype.indexOf`: index of the first occurrence, `-1`
when absent (used by `updateBookshelf` to map a filtered book back to
its position in the global `books` array). -/
def jsIndexOf (l : List Book) (b : Book) : Int :=
  match l.findIdx? (fun x => x == b) with
  | some i => (i : Int)
  | none => -1

/-- One `<td>` cell produced by `updateBookshelf`: the full-width
"No books to display" placeholder (carrying its `colSpan`), a clickable
book cell (carrying the `originalIndex` wired into its `onclick` and
the rendered book), or the error-styled question-mark cell for an
entry with no truthy title.  The inner HTML details (cover thumbnail, truncated
title, tooltip) are functions of the carried book and are not needed by
any claim, so they are not spelled out further. -/
inductive Cell where
  | noBooksCell (colSpan : Nat)
  | bookCell (origIdx : Int) (b : Book)
  | errorCell
  deriving Repr, DecidableEq

/-- The cell `updateBookshelf` builds for one entry: the
`if (book && book.title)` branch (entries are objects, so the test is
title truthiness) gives a clickable book cell with
`originalIndex = books.indexOf(book)`; otherwise the error cell. -/
def cellFor (globalBooks : List Book) (b : Book) : Cell :=
  if truthyStr b.title then Cell.bookCell (jsIndexOf globalBooks b) b
  else Cell.errorCell

/-- The row loop of `updateBookshelf`: the code runs
`totalRows = ceil(length/8)` iterations, row `r` consuming
`min(8, length - bookIndex)` entries, which is exactly this
take-8 / drop-8 recursion.  The `fuel` argument (instantiated with the
list length, an upper bound on the number of rows) only makes the
recursion structural; it is never exhausted on a non-empty list. -/
def chunkRowsGo (globalBooks : List Book) : Nat → List Book → List (List Cell)
  | _, [] => []
  | 0, _ :: _ => []
  | fuel + 1, a :: as =>
    ((a :: as).take 8).map (cellFor globalBooks) ::
      chunkRowsGo globalBooks fuel ((a :: as).drop 8)

/-- The rows of 8 built by `updateBookshelf` for a book list. -/
def chunkRows (globalBooks : List Book) (l : List Book) : List (List Cell) :=
  chunkRowsGo globalBooks l.length l

/-- index.js `updateBookshelf`, pure layout core: an empty (or absent)
`booksToShow` renders one row holding a single placeholder cell
spanning `booksPerRow = 8` columns; otherwise the rows of 8. -/
def updateBookshelf (globalBooks booksToShow : List Book) : List (List Cell) :=
  if booksToShow.isEmpty then [[Cell.noBooksCell 8]]
  else chunkRows globalBooks booksToShow

/-- The list page's render pipeline: `loadBooksForIndex` stores the
filtered collection in the global `books`, and `updateDisplay` passes
that same filtered collection to `updateBookshelf`. -/
def listPageRender (allBooks : List Book) : List (List Cell) :=
  updateBookshelf (loadBooksForIndex allBooks) (loadBooksForIndex allBooks)

/-- A minimal valid book used to build concrete collections. -/
def mkB (n : Nat) : Book := { id := n, title := some ['b'] }

/-- Ten valid books. -/
def bs10 : List Book := (List.range 10).map mkB

/-- The Dune record from the spec's example scenario. -/
def dune : Book :=
  { id := 1, title := some ("Dune".toList), author := some ("Herbert".toList),
    tags := some [("scifi".toList)] }

/-! ## C6 — malformed entries on the list page -/

/-- A malformed record: no title at all. -/
def badB : Book := { id := 2 }

/-! ## library.js — shared persistence client and URL identifier -/

/-- The JSON object returned by `GET /books` as the client sees it
after `response.json()`: each top-level field may be absent. -/
structure LoadPayload where
  library : Option Str := none
  lastUpdated : Option Str := none
  totalBooks : Option Nat := none
  books : Option (List Book) := none
  deriving Repr, DecidableEq

/-- library.js `loadBooks`: on any transport or parse error (the
`catch` branch, modelled as `Except.error`) return `[]`; otherwise
return `data.books || []` — the `books` field when present, the empty
array when absent or falsy. -/
def loadBooks : Except Unit LoadPayload → List Book
  | Except.error _ => []
  | Except.ok data => data.books.getD []

/-- The full library document `saveBooks` constructs and transmits. -/
structure LibraryDoc where
  library : Str
  lastUpdated : Str
  totalBooks : Nat
  books : List Book
  deriving Repr, DecidableEq

/-- The `dataToSave` object built inside library.js `saveBooks`:
fixed library name, the current timestamp, `totalBooks = books.length`
and the full collection. -/
def saveBooksDoc (books : List Book) (now : Str) : LibraryDoc :=
  { library := ("Little Library".toList), lastUpdated := now,
    totalBooks := books.length, books := books }

/-- The HTTP response as `saveBooks` inspects it (`response.ok`). -/
structure SaveResponse where
  ok : Bool
  deriving Repr, DecidableEq

/-- library.js `saveBooks`: build the document, transmit it through
the network (`net`, modelling `fetch`; `Except.error` is the thrown
path caught by the `catch` branch) and return `response.ok`; any
thrown error collapses to `false`. -/
def saveBooks (books : List Book) (now : Str)
    (net : LibraryDoc → Except Unit SaveResponse) : Bool :=
  match net (saveBooksDoc books now) with
  | Except.error _ => false
  | Except.ok resp => resp.ok

/-! ### JS loose equality between a numeric id and the URL id string

The detail-page code compares `b.id == bookId` (and `b.id != bookId`)
where `b.id` is a number and `bookId` the string from
`getBookIdFromUrl`.  ECMA loose equality converts the string with
`ToNumber` and compares numerically.  `jsStringToNumber` models
`ToNumber` on the identifier domain: an all-whitespace string is 0, a
whitespace-trimmed decimal digit string is its decimal value, and any
other string is treated as NaN (`none`, which compares unequal to
everything) — exponent, sign, hex and fractional forms do not occur as
book identifiers, whose decimal digits come from `Date.now()`. -/

/-- `'0' ≤ c ≤ '9'`. -/
def isDigitChar (c : Char) : Bool := '0' ≤ c && c ≤ '9'

/-- Numeric value of a digit character. -/
def digitVal (c : Char) : Nat := c.toNat - '0'.toNat

/-- Decimal value of a digit string. -/
def digitsVal (l : Str) : Nat := l.foldl (fun acc c => 10 * acc + digitVal c) 0

/-- Modelled JS `ToNumber` of a string, restricted to the identifier
domain (see above); `none` stands for NaN. -/
def jsStringToNumber (s : Str) : Option Nat :=
  let t := trimStr s
  if t.isEmpty then some 0
  else if t.all isDigitChar then some (digitsVal t)
  else none

/-- The loose comparison `n == s` between a natural id and the URL
string; NaN on the right compares unequal. -/
def jsLooseEqIdStr (n : Nat) (s : Str) : Bool := jsStringToNumber s == some n

/-! ## Detail page — updateStatus, deleteBook, displayBookDetails -/

/-- The blocking notifications (`alert(...)`) the controllers show. -/
inductive Notification where
  | noBookSelected
  | bookNotFound
  | statusUpdated (newStatus : Str)
  | statusUpdateError
  | bookDeleted (title : Str)
  | deleteError
  | pleaseEnterTitle
  | bookAdded (title : Str)
  | saveError
  deriving Repr, DecidableEq

/-- Navigation targets (`window.location.href = ...`). -/
inductive Page where
  | indexPage
  deriving Repr, DecidableEq

/-- Outcome of a mutating detail-page action: the collection passed to
`saveBooks` (or `none` when no save call is made), the notification
shown, and the navigation performed. -/
structure MutationResult where
  toSave : Option (List Book)
  notification : Option Notification
  nav : Option Page
  deriving Repr, DecidableEq

/-- The in-place mutation `books[bookIndex].status = newStatus`. -/
def setStatusAt (books : List Book) (i : Nat) (newStatus : Str) : List Book :=
  match books[i]? with
  | none => books
  | some b => books.set i { b with status := some newStatus }

/-- Detail-page `updateStatus`, pure core over the freshly loaded
collection: a falsy URL id alerts `No book selected`; a missing match
(`findIndex === -1`) alerts `Book not found` with no save; otherwise
the found book's `status` field is assigned and the whole collection
saved, the notification reporting the save outcome. -/
def updateStatus (urlId : Option Str) (newStatus : Str) (books : List Book)
    (saveOk : Bool) : MutationResult :=
  if !(truthyStr urlId) then
    { toSave := none, notification := some Notification.noBookSelected, nav := none }
  else
    match books.findIdx? (fun b => jsLooseEqIdStr b.id (urlId.getD [])) with
    | none =>
      { toSave := none, notification := some Notification.bookNotFound, nav := none }
    | some i =>
      { toSave := some (setStatusAt books i newStatus),
        notification := some (if saveOk then Notification.statusUpdated newStatus
          else Notification.statusUpdateError),
        nav := none }

/-- Detail-page `deleteBook`, pure core: falsy URL id alerts
`No book selected`; no match alerts `Book not found`; with a match the
`confirm` dialog gates everything — on confirm the collection is
filtered by `b.id != bookId` and saved, navigating back to the list
page only when the save succeeded; on cancel nothing happens. -/
def deleteBook (urlId : Option Str) (books : List Book) (confirmed : Bool)
    (saveOk : Bool) : MutationResult :=
  if !(truthyStr urlId) then
    { toSave := none, notification := some Notification.noBookSelected, nav := none }
  else
    match books.find? (fun b => jsLooseEqIdStr b.id (urlId.getD [])) with
    | none =>
      { toSave := none, notification := some Notification.bookNotFound, nav := none }
    | some book =>
      if confirmed then
        let updatedBooks := books.filter (fun b => !(jsLooseEqIdStr b.id (urlId.getD [])))
        if saveOk then
          { toSave := some updatedBooks,
            notification := some (Notification.bookDeleted (book.title.getD [])),
            nav := some Page.indexPage }
        else
          { toSave := some updatedBooks,
            notification := some Notification.deleteError, nav := none }
      else
        { toSave := none, notification := none, nav := none }

/-- Outcome of the detail page's initial load. -/
inductive DetailOutcome where
  | shown (b : Book)
  | redirectToIndex
  deriving Repr, DecidableEq

/-- Detail-page `displayBookDetails`, pure core: resolve the URL id in
the freshly loaded collection; on a falsy id or no match, redirect to
the list view; otherwise render the found book. -/
def displayBookDetails (urlId : Option Str) (books : List Book) : DetailOutcome :=
  if !(truthyStr urlId) then DetailOutcome.redirectToIndex
  else
    match books.find? (fun b => jsLooseEqIdStr b.id (urlId.getD [])) with
    | none => DetailOutcome.redirectToIndex
    | some b => DetailOutcome.shown b

/-! ## index.js — window focus refresh -/

/-- Result of the `focus` listener: the refreshed global `books` and
whether the display was updated. -/
structure FocusResult where
  newBooks : List Book
  rerendered : Bool
  deriving Repr, DecidableEq

/-- The `window focus` listener of index.js: remember the old length,
unconditionally re-fetch and re-filter the collection into the global
`books`, and call `updateDisplay` only when the (filtered) length
changed. -/
def onFocus (oldBooks : List Book) (fetched : List Book) : FocusResult :=
  let newBooks := loadBooksForIndex fetched
  { newBooks := newBooks, rerendered := newBooks.length != oldBooks.length }

/-! ## addBook.js — create controller -/

/-- The raw form field values (`FormData.get` of each named field). -/
structure AddBookForm where
  title : Str
  author : Str
  description : Str
  coverImage : Str
  review : Str
  tags : Str
  status : Str
  deriving Repr, DecidableEq

/-- `split(',')`, trim each piece, drop falsy (empty) tags. -/
def parseTags (s : Str) : List Str :=
  ((List.splitOn ',' s).map trimStr).filter (fun t => !t.isEmpty)

/-- The book object `handleAddBook` builds from the form:
`id = Date.now()`, trimmed strings, parsed tags, the dropdown status
and the creation timestamp. -/
def builtBook (form : AddBookForm) (now : Nat) (nowIso : Str) : Book :=
  { id := now,
    title := some (trimStr form.title),
    author := some (trimStr form.author),
    description := some (trimStr form.description),
    coverImage := some (trimStr form.coverImage),
    review := some (trimStr form.review),
    tags := some (parseTags form.tags),
    status := some form.status,
    dateAdded := some nowIso }

/-- Outcome of one `handleAddBook` submission: whether `loadBooks` was
reached, what was passed to `saveBooks` (or `none`), the notification,
whether focus was put back into the title field, the navigation, and
whether the form was reset. -/
structure AddBookResult where
  loadCalled : Bool
  toSave : Option (List Book)
  notification : Option Notification
  focusTitle : Bool
  nav : Option Page
  formReset : Bool
  deriving Repr, DecidableEq

/-- addBook.js `handleAddBook`, pure core: build the book; if its
trimmed title is falsy, alert and re-focus the title field before any
network call; otherwise load the existing collection, append, save,
and on success reset the form and navigate to the list page. -/
def handleAddBook (form : AddBookForm) (now : Nat) (nowIso : Str)
    (existingBooks : List Book) (saveOk : Bool) : AddBookResult :=
  let book := builtBook form now nowIso
  if !(truthyStr book.title) then
    { loadCalled := false, toSave := none,
      notification := some Notification.pleaseEnterTitle,
      focusTitle := true, nav := none, formReset := false }
  else
    let newBooks := existingBooks ++ [book]
    if saveOk then
      { loadCalled := true, toSave := some newBooks,
        notification := some (Notification.bookAdded (book.title.getD [])),
        focusTitle := false, nav := some Page.indexPage, formReset := true }
    else
      { loadCalled := true, toSave := some newBooks,
        notification := some Notification.saveError,
        focusTitle := false, nav := none, formReset := false }

/-! ## Decimal form of a numeric identifier -/

/-- The decimal digit character of `d` (callers keep `d < 10`). -/
def digitChar (d : Nat) : Char :=
  match d with
  | 0 => '0' | 1 => '1' | 2 => '2' | 3 => '3' | 4 => '4'
  | 5 => '5' | 6 => '6' | 7 => '7' | 8 => '8' | _ => '9'

/-- Decimal digits of `n`, most significant first; the structural
`fuel` (instantiated with `n + 1`, always sufficient) only makes the
recursion structural. -/
def natToDecStrGo : Nat → Nat → Str
  | 0, _ => []
  | fuel + 1, n =>
    if n < 10 then [digitChar n]
    else natToDecStrGo fuel (n / 10) ++ [digitChar (n % 10)]

/-- The decimal string form of a natural number, as
`String(n)` / URL serialisation would produce for a book id. -/
def natToDecStr (n : Nat) : Str := natToDecStrGo (n + 1) n

/-- A form whose title is whitespace-only. -/
def blankTitleForm : AddBookForm :=
  { title := [' ', ' '], author := [], description := [], coverImage := [],
    review := [], tags := [], status := [] }

/-! ## C10 — loose equality resolves decimal id strings -/

/-- A digit character is a digit and not whitespace. -/
def goodDigit (c : Char) : Bool := isDigitChar c && !(isWsChar c)

/-! ## Theorems -/

theorem hasSubstr_nil_right (n : Str) : hasSubstr n [] = n.isEmpty := rfl

theorem toLowerStr_eq_nil_iff (s : Str) : toLowerStr s = [] ↔ s = [] := by
  simp [toLowerStr]

theorem trimStr_nil : trimStr [] = [] := rfl

theorem hasSubstr_nil_of_ne (n : Str) (hn : n ≠ []) (s : Str) (hs : s = []) :
    hasSubstr n s = false := by
  subst hs
  cases n with
  | nil => exact absurd rfl hn
  | cons c t => rfl

/-- The title clause of the code's predicate agrees with the claim's. -/
theorem titleClause_iff (q' : Str) (hq' : q' ≠ []) (ot : Option Str) :
    hasSubstr q' (toLowerStr (ot.getD [])) = true ↔
      ∃ t, ot = some t ∧ hasSubstr q' (toLowerStr t) = true := by
  cases ot with
  | none =>
    rw [Option.getD_none, show toLowerStr [] = [] from rfl,
      hasSubstr_nil_of_ne q' hq' _ rfl]
    simp
  | some t =>
    rw [Option.getD_some]
    constructor
    · intro h
      exact ⟨t, rfl, h⟩
    · rintro ⟨t', ht', h⟩
      cases ht'
      exact h

/-- The author clause (`book.author && …includes(…)`) agrees with the
claim's author clause as long as the query is non-empty. -/
theorem authorClause_iff (q' : Str) (hq' : q' ≠ []) (oa : Option Str) :
    (truthyStr oa && hasSubstr q' (toLowerStr (oa.getD []))) = true ↔
      ∃ a, oa = some a ∧ hasSubstr q' (toLowerStr a) = true := by
  cases oa with
  | none =>
    simp [truthyStr]
  | some a =>
    cases a with
    | nil =>
      have h0 : hasSubstr q' (toLowerStr []) = false :=
        hasSubstr_nil_of_ne q' hq' _ rfl
      simp [truthyStr, h0]
    | cons c t =>
      simp only [truthyStr, List.isEmpty_cons, Bool.not_false, Bool.true_and,
        Option.getD_some, Option.some.injEq]
      constructor
      · intro h
        exact ⟨c :: t, rfl, h⟩
      · rintro ⟨a', ha', h⟩
        cases ha'
        exact h

/-- The tag clause (`book.tags && book.tags.some(…)`) agrees with the
claim's tag clause. -/
theorem tagClause_iff (q' : Str) (ots : Option (List Str)) :
    (ots.isSome && (ots.getD []).any (fun t => hasSubstr q' (toLowerStr t))) = true ↔
      ∃ ts, ots = some ts ∧ ∃ t ∈ ts, hasSubstr q' (toLowerStr t) = true := by
  cases ots with
  | none => simp
  | some ts =>
    simp only [Option.isSome_some, Bool.true_and, Option.getD_some,
      List.any_eq_true, Option.some.injEq]
    constructor
    · rintro ⟨t, ht, h⟩
      exact ⟨ts, rfl, t, ht, h⟩
    · rintro ⟨ts', hts', t, ht, h⟩
      cases hts'
      exact ⟨t, ht, h⟩

/-- On a non-empty query the code's filter predicate agrees with the
claim's match condition. -/
theorem bookMatches_iff_claimMatches (query : Str) (hq : query ≠ []) (b : Book) :
    bookMatches query b = true ↔ claimMatches query b := by
  have hq' : toLowerStr query ≠ [] := fun h => hq ((toLowerStr_eq_nil_iff query).mp h)
  unfold bookMatches claimMatches
  simp only [Bool.or_eq_true]
  rw [titleClause_iff _ hq', authorClause_iff _ hq', tagClause_iff, or_assoc]

theorem trimStr_ne_nil_of_isEmpty_false (q : Str)
    (h : (trimStr q).isEmpty = false) : q ≠ [] := by
  intro hq
  subst hq
  exact absurd h (by rw [trimStr_nil]; simp)

/-- C1: `searchBooks` includes a book iff the query is a
case-insensitive substring of its title, its author, or some tag; an
empty or whitespace-only query yields the full collection unchanged in
order; and the result is always a stable subsequence (sublist) of the
input order. -/
theorem C1_searchBooks_correct (books : List Book) (query : Str) :
    ((trimStr query).isEmpty = true → searchBooks books query = books) ∧
    ((trimStr query).isEmpty = false → ∀ b : Book,
        b ∈ searchBooks books query ↔ b ∈ books ∧ claimMatches query b) ∧
    (searchBooks books query).Sublist books := by
  refine ⟨fun h => ?_, fun h b => ?_, ?_⟩
  · rw [searchBooks, if_pos h]
  · rw [searchBooks, if_neg (by rw [h]; exact fun hc => Bool.false_ne_true hc)]
    rw [List.mem_filter,
      bookMatches_iff_claimMatches query (trimStr_ne_nil_of_isEmpty_false query h) b]
  · rw [searchBooks]
    split
    · exact List.Sublist.refl books
    · exact List.filter_sublist books

theorem chunkRowsGo_flatten (g : List Book) (fuel : Nat) (l : List Book)
    (hf : l.length ≤ fuel) :
    (chunkRowsGo g fuel l).flatten = l.map (cellFor g) := by
  induction fuel generalizing l with
  | zero =>
    cases l with
    | nil => rfl
    | cons a as => simp at hf
  | succ fuel ih =>
    cases l with
    | nil => rfl
    | cons a as =>
      rw [chunkRowsGo, List.flatten_cons,
        ih ((a :: as).drop 8)
          (by simp only [List.length_drop, List.length_cons] at hf ⊢; omega),
        ← List.map_append, List.take_append_drop]

theorem chunkRows_flatten (g : List Book) (l : List Book) :
    (chunkRows g l).flatten = l.map (cellFor g) :=
  chunkRowsGo_flatten g l.length l (Nat.le_refl _)

theorem chunkRowsGo_length (g : List Book) (fuel : Nat) (l : List Book)
    (hf : l.length ≤ fuel) :
    (chunkRowsGo g fuel l).length = (l.length + 7) / 8 := by
  induction fuel generalizing l with
  | zero =>
    cases l with
    | nil => rfl
    | cons a as => simp at hf
  | succ fuel ih =>
    cases l with
    | nil => rfl
    | cons a as =>
      rw [chunkRowsGo, List.length_cons,
        ih ((a :: as).drop 8)
          (by simp only [List.length_drop, List.length_cons] at hf ⊢; omega)]
      simp only [List.length_drop, List.length_cons]
      omega

theorem chunkRows_length (g : List Book) (l : List Book) :
    (chunkRows g l).length = (l.length + 7) / 8 :=
  chunkRowsGo_length g l.length l (Nat.le_refl _)

theorem chunkRowsGo_last (g : List Book) (fuel : Nat) (l : List Book)
    (hl : l ≠ []) (hf : l.length ≤ fuel) :
    ∃ r, (chunkRowsGo g fuel l).getLast? = some r ∧
      r.length = (if l.length % 8 = 0 then 8 else l.length % 8) := by
  induction fuel generalizing l with
  | zero =>
    cases l with
    | nil => exact absurd rfl hl
    | cons a as => simp at hf
  | succ fuel ih =>
    cases l with
    | nil => exact absurd rfl hl
    | cons a as =>
      by_cases h8 : (a :: as).length ≤ 8
      · have hdrop : (a :: as).drop 8 = [] := by
          rw [List.drop_eq_nil_iff]
          exact h8
        rw [chunkRowsGo, hdrop]
        refine ⟨((a :: as).take 8).map (cellFor g), ?_, ?_⟩
        · cases fuel <;> rfl
        · rw [List.length_map, List.length_take]
          simp only [List.length_cons] at h8 ⊢
          by_cases hm : (as.length + 1) % 8 = 0
          · rw [if_pos hm]
            omega
          · rw [if_neg hm]
            omega
      · have hdrop : (a :: as).drop 8 ≠ [] := by
          rw [Ne, List.drop_eq_nil_iff]
          exact h8
        obtain ⟨r, hr, hrl⟩ :=
          ih ((a :: as).drop 8) hdrop
            (by simp only [List.length_drop, List.length_cons] at hf ⊢; omega)
        refine ⟨r, ?_, ?_⟩
        · rw [chunkRowsGo]
          cases hck : chunkRowsGo g fuel ((a :: as).drop 8) with
          | nil => rw [hck] at hr; cases hr
          | cons c cs =>
            rw [hck] at hr
            rw [List.getLast?_cons_cons, hr]
        · rw [hrl, List.length_drop]
          have h2 : ((a :: as).length - 8) % 8 = (a :: as).length % 8 := by
            simp only [List.length_cons] at h8 ⊢
            omega
          rw [h2]

theorem chunkRows_last (g : List Book) (l : List Book) (hl : l ≠ []) :
    ∃ r, (chunkRows g l).getLast? = some r ∧
      r.length = (if l.length % 8 = 0 then 8 else l.length % 8) :=
  chunkRowsGo_last g l.length l hl (Nat.le_refl _)

/-- C2: rendering a non-empty list of N books produces `ceil(N/8)` rows
holding the books' cells in input order, the last row having `N mod 8`
cells (8 when N is an exact multiple of 8); an empty list renders
exactly one row holding a single placeholder cell spanning the full
8-column width. -/
theorem C2_updateBookshelf_layout (g bs : List Book) :
    (bs = [] → updateBookshelf g bs = [[Cell.noBooksCell 8]]) ∧
    (bs ≠ [] →
      (updateBookshelf g bs).length = (bs.length + 7) / 8 ∧
      (updateBookshelf g bs).flatten = bs.map (cellFor g) ∧
      ∃ r, (updateBookshelf g bs).getLast? = some r ∧
        r.length = (if bs.length % 8 = 0 then 8 else bs.length % 8)) := by
  constructor
  · intro h
    subst h
    rfl
  · intro h
    have he : bs.isEmpty = false := by
      cases bs with
      | nil => exact absurd rfl h
      | cons a as => rfl
    rw [updateBookshelf, if_neg (by rw [he]; exact fun hc => Bool.false_ne_true hc)]
    exact ⟨chunkRows_length g bs, chunkRows_flatten g bs, chunkRows_last g bs h⟩

/-- Witness for C2 at a concrete input: 10 books render as
`ceil(10/8) = 2` rows whose last row has `10 mod 8 = 2` cells. -/
theorem C2_updateBookshelf_layout_witness :
    bs10 ≠ [] ∧
      (updateBookshelf [] bs10).length = (bs10.length + 7) / 8 ∧
      (updateBookshelf [] bs10).flatten = bs10.map (cellFor []) ∧
      ∃ r, (updateBookshelf [] bs10).getLast? = some r ∧
        r.length = (if bs10.length % 8 = 0 then 8 else bs10.length % 8) :=
  ⟨by decide, (C2_updateBookshelf_layout [] bs10).2 (by decide)⟩

/-- Witness for C1 at a concrete input: query `"bert"` (a substring of
author `"Herbert"`) retains the Dune record. -/
theorem C1_searchBooks_correct_witness :
    (trimStr ("bert".toList)).isEmpty = false ∧ dune ∈ searchBooks [dune] ("bert".toList) :=
  ⟨by decide,
    ((C1_searchBooks_correct [dune] ("bert".toList)).2.1 (by decide) dune).mpr
      ⟨by decide,
        Or.inr (Or.inl ⟨("Herbert".toList), rfl, by decide⟩)⟩⟩

/-- Counterexample for C6 as stated: a collection holding a malformed
(title-less) entry renders on the list page with no error-styled cell
at all — the entry is silently discarded by `loadBooksForIndex` before
the grid is built, so only the one valid book produces a cell. -/
theorem C6_counterexample :
    Cell.errorCell ∉ (listPageRender [dune, badB]).flatten ∧
      (listPageRender [dune, badB]).flatten = [Cell.bookCell 0 dune] := by
  refine ⟨?_, by decide⟩
  decide

theorem isValidBook_truthy_title (b : Book) (h : isValidBook b = true) :
    truthyStr b.title = true := by
  unfold isValidBook at h
  exact (Bool.and_eq_true _ _ |>.mp h).1

/-- C6 amended: the list page's render pipeline never shows an
error-styled cell — malformed entries are discarded by the load filter
before rendering, hence silently dropped; the error-styled cell is
produced by the grid renderer only when a title-less entry is handed to
it directly, a path the list page does not take. -/
theorem C6_amended_malformed_filtered (allBooks g : List Book) (b : Book) :
    Cell.errorCell ∉ (listPageRender allBooks).flatten ∧
    (truthyStr b.title = false → cellFor g b = Cell.errorCell) := by
  constructor
  · unfold listPageRender updateBookshelf
    split
    · simp
    · rw [chunkRows_flatten]
      intro hmem
      obtain ⟨x, hx, hcell⟩ := List.mem_map.mp hmem
      have hv : isValidBook x = true := List.of_mem_filter hx
      unfold cellFor at hcell
      rw [if_pos (isValidBook_truthy_title x hv)] at hcell
      cases hcell
  · intro h
    unfold cellFor
    rw [h]
    exact if_neg (fun hc => Bool.false_ne_true hc)

/-- Witness for the amended C6 at a concrete input: the title-less
record, handed to the renderer directly, yields the error cell. -/
theorem C6_amended_witness :
    truthyStr badB.title = false ∧ cellFor [] badB = Cell.errorCell :=
  ⟨by decide, (C6_amended_malformed_filtered [dune, badB] [] badB).2 (by decide)⟩

/-! ## C7 / C9 — persistence client -/

/-- C7: the persistence client fails soft — a transport or parse error
in `loadBooks` yields the empty collection, and in `saveBooks` both a
thrown error and a non-accepted transmission (`response.ok = false`)
collapse to `false`; neither operation raises to its caller (both are
total functions of their inputs). -/
theorem C7_persistence_fails_soft (r : Except Unit LoadPayload)
    (books : List Book) (now : Str)
    (net : LibraryDoc → Except Unit SaveResponse) :
    (∀ e, r = Except.error e → loadBooks r = []) ∧
    (∀ e, net (saveBooksDoc books now) = Except.error e →
      saveBooks books now net = false) ∧
    (∀ resp, net (saveBooksDoc books now) = Except.ok resp → resp.ok = false →
      saveBooks books now net = false) := by
  refine ⟨?_, ?_, ?_⟩
  · intro e he
    rw [he]
    rfl
  · intro e he
    rw [saveBooks, he]
  · intro resp hr hok
    rw [saveBooks, hr]
    exact hok

/-- Witness for C7 at concrete inputs: an erroring transport yields
`[]` from load and `false` from save, and an accepted-but-rejected
response yields `false`. -/
theorem C7_persistence_fails_soft_witness :
    loadBooks (Except.error ()) = [] ∧
      saveBooks [] [] (fun _ => Except.error ()) = false ∧
      saveBooks [] [] (fun _ => Except.ok { ok := false }) = false :=
  ⟨(C7_persistence_fails_soft (Except.error ()) [] []
      (fun _ => Except.error ())).1 () rfl,
    (C7_persistence_fails_soft (Except.error ()) [] []
      (fun _ => Except.error ())).2.1 () rfl,
    (C7_persistence_fails_soft (Except.error ()) [] []
      (fun _ => Except.ok { ok := false })).2.2 { ok := false } rfl rfl⟩

/-- C9: every transmitted library document satisfies
`totalBooks = length(books)` and carries exactly the timestamp of the
write; the invariant is established on every write but not checked on
read — `loadBooks` reads only the `books` field, so its result is
unchanged under any `totalBooks` (or `lastUpdated`) value. -/
theorem C9_saveDoc_invariant (books : List Book) (now : Str)
    (payload : LoadPayload) (n : Option Nat) (t : Option Str) :
    (saveBooksDoc books now).totalBooks = books.length ∧
    (saveBooksDoc books now).lastUpdated = now ∧
    (saveBooksDoc books now).books = books ∧
    loadBooks (Except.ok { payload with totalBooks := n, lastUpdated := t }) =
      loadBooks (Except.ok payload) :=
  ⟨rfl, rfl, rfl, rfl⟩

/-! ## C5 — focus dirty check -/

/-- C5: on window refocus the collection is always re-fetched (the new
global `books` is the filtered fresh fetch), but the display is
re-rendered exactly when the filtered length differs from the previous
one — a length-based dirty check, so a same-count edit leaves the
display unchanged. -/
theorem C5_focus_dirty_check (oldBooks fetched : List Book) :
    ((onFocus oldBooks fetched).newBooks = loadBooksForIndex fetched) ∧
    ((onFocus oldBooks fetched).rerendered = true ↔
      (loadBooksForIndex fetched).length ≠ oldBooks.length) ∧
    ((loadBooksForIndex fetched).length = oldBooks.length →
      (onFocus oldBooks fetched).rerendered = false) := by
  refine ⟨rfl, ?_, ?_⟩
  · show ((loadBooksForIndex fetched).length != oldBooks.length) = true ↔ _
    rw [bne_iff_ne]
  · intro h
    show ((loadBooksForIndex fetched).length != oldBooks.length) = false
    rw [bne_eq_false_iff_eq]
    exact h

/-- Witness for C5 at a concrete input: replacing the single stored
book by a different book of the same count does not re-render. -/
theorem C5_focus_dirty_check_witness :
    (loadBooksForIndex [mkB 5]).length = ([dune] : List Book).length ∧
      (onFocus [dune] [mkB 5]).rerendered = false :=
  ⟨by decide, (C5_focus_dirty_check [dune] [mkB 5]).2.2 (by decide)⟩

/-! ## C8 — create controller validation -/

/-- C8: a submission whose title is empty after trimming makes no
network call (`loadBooks` is never reached and nothing is passed to
`saveBooks`), shows the inline validation cue (the `Please enter a
book title` alert with focus returned to the title field), and thus
leaves the persisted collection unchanged. -/
theorem C8_addBook_empty_title (form : AddBookForm) (now : Nat) (nowIso : Str)
    (existingBooks : List Book) (saveOk : Bool)
    (h : trimStr form.title = []) :
    (handleAddBook form now nowIso existingBooks saveOk).loadCalled = false ∧
    (handleAddBook form now nowIso existingBooks saveOk).toSave = none ∧
    (handleAddBook form now nowIso existingBooks saveOk).notification =
      some Notification.pleaseEnterTitle ∧
    (handleAddBook form now nowIso existingBooks saveOk).focusTitle = true := by
  have hb : (builtBook form now nowIso).title = some [] := by
    rw [builtBook, h]
  rw [handleAddBook, hb]
  exact ⟨rfl, rfl, rfl, rfl⟩

/-- Witness for C8 at a concrete input. -/
theorem C8_addBook_empty_title_witness :
    trimStr blankTitleForm.title = [] ∧
      (handleAddBook blankTitleForm 7 [] [dune] true).loadCalled = false ∧
      (handleAddBook blankTitleForm 7 [] [dune] true).toSave = none :=
  ⟨by decide,
    (C8_addBook_empty_title blankTitleForm 7 [] [dune] true (by decide)).1,
    (C8_addBook_empty_title blankTitleForm 7 [] [dune] true (by decide)).2.1⟩

/-! ## C3 / C4 — detail-page mutations -/

theorem truthyStr_some_of_ne (s : Str) (h : s ≠ []) : truthyStr (some s) = true := by
  cases s with
  | nil => exact absurd rfl h
  | cons c t => rfl

theorem updateStatus_found (urlId : Str) (hid : urlId ≠ []) (newStatus : Str)
    (books : List Book) (saveOk : Bool) (i : Nat)
    (hfi : books.findIdx? (fun x => jsLooseEqIdStr x.id urlId) = some i) :
    updateStatus (some urlId) newStatus books saveOk =
      { toSave := some (setStatusAt books i newStatus),
        notification := some (if saveOk then Notification.statusUpdated newStatus
          else Notification.statusUpdateError),
        nav := none } := by
  rw [updateStatus, if_neg (by simp [truthyStr_some_of_ne urlId hid])]
  simp only [Option.getD_some]
  rw [hfi]

theorem updateStatus_notFound (urlId : Str) (hid : urlId ≠ []) (newStatus : Str)
    (books : List Book) (saveOk : Bool)
    (hno : books.findIdx? (fun x => jsLooseEqIdStr x.id urlId) = none) :
    updateStatus (some urlId) newStatus books saveOk =
      { toSave := none, notification := some Notification.bookNotFound,
        nav := none } := by
  rw [updateStatus, if_neg (by simp [truthyStr_some_of_ne urlId hid])]
  simp only [Option.getD_some]
  rw [hno]

/-- C3: with a non-empty URL identifier, when some book matches it the
collection passed to `saveBooks` is exactly the old collection with
the located (first-matching) book's `status` field replaced — same
length, same entry at every other position, the located entry changed
only in `status`; when no book matches, nothing is passed to
`saveBooks` and the user is notified `Book not found`. -/
theorem C3_updateStatus_frame (urlId : Str) (hid : urlId ≠ [])
    (newStatus : Str) (books : List Book) (saveOk : Bool) :
    ((∃ b ∈ books, jsLooseEqIdStr b.id urlId = true) →
      ∃ i b l',
        books.findIdx? (fun x => jsLooseEqIdStr x.id urlId) = some i ∧
        books[i]? = some b ∧
        jsLooseEqIdStr b.id urlId = true ∧
        (updateStatus (some urlId) newStatus books saveOk).toSave = some l' ∧
        l' = books.set i { b with status := some newStatus } ∧
        l'.length = books.length ∧
        l'[i]? = some { b with status := some newStatus } ∧
        (∀ j, j ≠ i → l'[j]? = books[j]?)) ∧
    ((∀ b ∈ books, jsLooseEqIdStr b.id urlId = false) →
      (updateStatus (some urlId) newStatus books saveOk).toSave = none ∧
      (updateStatus (some urlId) newStatus books saveOk).notification =
        some Notification.bookNotFound) := by
  constructor
  · intro hex
    have hsome : (books.findIdx? (fun x => jsLooseEqIdStr x.id urlId)).isSome = true := by
      rw [List.findIdx?_isSome, List.any_eq_true]
      obtain ⟨b, hb, hpb⟩ := hex
      exact ⟨b, hb, hpb⟩
    obtain ⟨i, hfi⟩ := Option.isSome_iff_exists.mp hsome
    obtain ⟨hlt, hidx⟩ := List.findIdx?_eq_some_iff_findIdx_eq.mp hfi
    have hp : jsLooseEqIdStr (books.get ⟨i, hlt⟩).id urlId = true := by
      have hw : books.findIdx (fun x => jsLooseEqIdStr x.id urlId) < books.length := by
        rw [hidx]
        exact hlt
      have := @List.findIdx_getElem _ (fun x => jsLooseEqIdStr x.id urlId) books hw
      simp only [hidx] at this
      exact this
    have hget : books[i]? = some (books.get ⟨i, hlt⟩) := by
      rw [List.getElem?_eq_getElem hlt]
      rfl
    have hset : setStatusAt books i newStatus =
        books.set i { books.get ⟨i, hlt⟩ with status := some newStatus } := by
      rw [setStatusAt, hget]
    refine ⟨i, books.get ⟨i, hlt⟩,
      books.set i { books.get ⟨i, hlt⟩ with status := some newStatus },
      hfi, hget, hp, ?_, rfl, List.length_set books i _, ?_, ?_⟩
    · rw [updateStatus_found urlId hid newStatus books saveOk i hfi, hset]
    · exact List.getElem?_set_self hlt
    · intro j hj
      exact List.getElem?_set_ne (Ne.symm hj)
  · intro hall
    have hno : books.findIdx? (fun x => jsLooseEqIdStr x.id urlId) = none :=
      List.findIdx?_eq_none_iff.mpr hall
    rw [updateStatus_notFound urlId hid newStatus books saveOk hno]
    exact ⟨rfl, rfl⟩

/-- Witness for C3 at a concrete input: updating the status of the
book with id 1 via URL id string "1". -/
theorem C3_updateStatus_frame_witness :
    (∃ b ∈ ([dune] : List Book), jsLooseEqIdStr b.id ['1'] = true) ∧
      ∃ i b l',
        ([dune] : List Book).findIdx? (fun x => jsLooseEqIdStr x.id ['1']) = some i ∧
        ([dune] : List Book)[i]? = some b ∧
        jsLooseEqIdStr b.id ['1'] = true ∧
        (updateStatus (some ['1']) ['r'] [dune] true).toSave = some l' ∧
        l' = ([dune] : List Book).set i { b with status := some ['r'] } ∧
        l'.length = ([dune] : List Book).length ∧
        l'[i]? = some { b with status := some ['r'] } ∧
        (∀ j, j ≠ i → l'[j]? = ([dune] : List Book)[j]?) :=
  ⟨⟨dune, by decide, by decide⟩,
    (C3_updateStatus_frame ['1'] (by decide) ['r'] [dune] true).1
      ⟨dune, by decide, by decide⟩⟩

theorem deleteBook_confirmed_found (urlId : Str) (hid : urlId ≠ [])
    (books : List Book) (saveOk : Bool) (bk : Book)
    (hf : books.find? (fun b => jsLooseEqIdStr b.id urlId) = some bk) :
    deleteBook (some urlId) books true saveOk =
      if saveOk then
        { toSave := some (books.filter (fun b => !(jsLooseEqIdStr b.id urlId))),
          notification := some (Notification.bookDeleted (bk.title.getD [])),
          nav := some Page.indexPage }
      else
        { toSave := some (books.filter (fun b => !(jsLooseEqIdStr b.id urlId))),
          notification := some Notification.deleteError, nav := none } := by
  rw [deleteBook, if_neg (by simp [truthyStr_some_of_ne urlId hid])]
  simp only [Option.getD_some]
  rw [hf]
  cases saveOk <;> rfl

/-- C4: with a non-empty URL identifier and a confirmed dialog, when a
book matches the identifier the collection passed to `saveBooks` is
exactly the old collection with every entry of that identifier removed
— membership is unchanged for non-matching books and the remainder is
a sublist (relative order preserved); when the save succeeds the page
navigates to the list view; and without confirmation nothing is saved
and no navigation happens. -/
theorem C4_deleteBook_correct (urlId : Str) (hid : urlId ≠ [])
    (books : List Book) (saveOk : Bool) :
    ((∃ b ∈ books, jsLooseEqIdStr b.id urlId = true) →
      ∃ l', (deleteBook (some urlId) books true saveOk).toSave = some l' ∧
        l' = books.filter (fun b => !(jsLooseEqIdStr b.id urlId)) ∧
        (∀ b : Book, b ∈ l' ↔ b ∈ books ∧ jsLooseEqIdStr b.id urlId = false) ∧
        l'.Sublist books ∧
        (saveOk = true →
          (deleteBook (some urlId) books true saveOk).nav = some Page.indexPage)) ∧
    ((deleteBook (some urlId) books false saveOk).toSave = none ∧
      (deleteBook (some urlId) books false saveOk).nav = none) := by
  constructor
  · intro hex
    have hsome : (books.find? (fun b => jsLooseEqIdStr b.id urlId)).isSome = true := by
      rw [List.find?_isSome]
      obtain ⟨b, hb, hpb⟩ := hex
      exact ⟨b, hb, hpb⟩
    obtain ⟨bk, hf⟩ := Option.isSome_iff_exists.mp hsome
    refine ⟨books.filter (fun b => !(jsLooseEqIdStr b.id urlId)), ?_, rfl, ?_,
      List.filter_sublist books, ?_⟩
    · rw [deleteBook_confirmed_found urlId hid books saveOk bk hf]
      cases saveOk <;> rfl
    · intro b
      rw [List.mem_filter]
      constructor
      · rintro ⟨hb, hp⟩
        rw [Bool.not_eq_true'] at hp
        exact ⟨hb, hp⟩
      · rintro ⟨hb, hp⟩
        rw [Bool.not_eq_true']
        exact ⟨hb, hp⟩
    · intro hs
      subst hs
      rw [deleteBook_confirmed_found urlId hid books true bk hf]
      rfl
  · rw [deleteBook, if_neg (by simp [truthyStr_some_of_ne urlId hid])]
    simp only [Option.getD_some]
    cases hq : books.find? (fun b => jsLooseEqIdStr b.id urlId) with
    | none => exact ⟨rfl, rfl⟩
    | some bk => exact ⟨rfl, rfl⟩

/-- Witness for C4 at a concrete input: confirmed deletion of the book
with id 1 via URL id string "1". -/
theorem C4_deleteBook_correct_witness :
    (∃ b ∈ ([dune, mkB 2] : List Book), jsLooseEqIdStr b.id ['1'] = true) ∧
      ∃ l', (deleteBook (some ['1']) [dune, mkB 2] true true).toSave = some l' ∧
        l' = ([dune, mkB 2] : List Book).filter
          (fun b => !(jsLooseEqIdStr b.id ['1'])) ∧
        (∀ b : Book, b ∈ l' ↔ b ∈ ([dune, mkB 2] : List Book) ∧
          jsLooseEqIdStr b.id ['1'] = false) ∧
        l'.Sublist [dune, mkB 2] ∧
        (true = true →
          (deleteBook (some ['1']) [dune, mkB 2] true true).nav =
            some Page.indexPage) :=
  ⟨⟨dune, by decide, by decide⟩,
    (C4_deleteBook_correct ['1'] (by decide) [dune, mkB 2] true).1
      ⟨dune, by decide, by decide⟩⟩

theorem digitChar_good (d : Nat) (h : d < 10) : goodDigit (digitChar d) = true := by
  interval_cases d <;> decide

theorem digitVal_digitChar (d : Nat) (h : d < 10) : digitVal (digitChar d) = d := by
  interval_cases d <;> decide

theorem digitsVal_append (l : Str) (c : Char) :
    digitsVal (l ++ [c]) = 10 * digitsVal l + digitVal c := by
  rw [digitsVal, digitsVal, List.foldl_append]
  rfl

theorem natToDecStrGo_good (fuel n : Nat) (h : n < fuel) :
    (natToDecStrGo fuel n).all goodDigit = true := by
  induction fuel generalizing n with
  | zero => omega
  | succ fuel ih =>
    rw [natToDecStrGo]
    by_cases h10 : n < 10
    · rw [if_pos h10, List.all_cons]
      rw [digitChar_good n h10]
      rfl
    · rw [if_neg h10, List.all_append, ih (n / 10) (by omega), List.all_cons]
      rw [digitChar_good (n % 10) (by omega)]
      rfl

theorem natToDecStrGo_ne_nil (fuel n : Nat) (h : n < fuel) :
    natToDecStrGo fuel n ≠ [] := by
  cases fuel with
  | zero => omega
  | succ fuel =>
    rw [natToDecStrGo]
    by_cases h10 : n < 10
    · rw [if_pos h10]
      exact List.cons_ne_nil _ _
    · rw [if_neg h10]
      intro hc
      exact absurd (List.append_eq_nil.mp hc).2 (List.cons_ne_nil _ _)

theorem natToDecStrGo_val (fuel n : Nat) (h : n < fuel) :
    digitsVal (natToDecStrGo fuel n) = n := by
  induction fuel generalizing n with
  | zero => omega
  | succ fuel ih =>
    rw [natToDecStrGo]
    by_cases h10 : n < 10
    · rw [if_pos h10]
      have : digitsVal [digitChar n] = digitVal (digitChar n) := by
        rw [digitsVal]
        simp [List.foldl]
      rw [this, digitVal_digitChar n h10]
    · rw [if_neg h10, digitsVal_append, ih (n / 10) (by omega),
        digitVal_digitChar (n % 10) (by omega)]
      omega

theorem natToDecStr_good (n : Nat) : (natToDecStr n).all goodDigit = true :=
  natToDecStrGo_good (n + 1) n (Nat.lt_succ_self n)

theorem natToDecStr_ne_nil (n : Nat) : natToDecStr n ≠ [] :=
  natToDecStrGo_ne_nil (n + 1) n (Nat.lt_succ_self n)

theorem natToDecStr_val (n : Nat) : digitsVal (natToDecStr n) = n :=
  natToDecStrGo_val (n + 1) n (Nat.lt_succ_self n)

theorem all_mono (l : Str) (p q : Char → Bool)
    (h : ∀ c, p c = true → q c = true) (hl : l.all p = true) :
    l.all q = true := by
  induction l with
  | nil => rfl
  | cons a as ih =>
    rw [List.all_cons, Bool.and_eq_true] at hl ⊢
    exact ⟨h a hl.1, ih hl.2⟩

theorem dropWhile_eq_self_of_all_neg (m : Str) (p : Char → Bool)
    (hm : m.all (fun c => !(p c)) = true) : m.dropWhile p = m := by
  cases m with
  | nil => rfl
  | cons a as =>
    rw [List.all_cons, Bool.and_eq_true, Bool.not_eq_true'] at hm
    rw [List.dropWhile_cons, if_neg]
    rw [hm.1]
    exact fun hc => Bool.false_ne_true hc

theorem trimStr_eq_self_of_no_ws (l : Str)
    (hl : l.all (fun c => !(isWsChar c)) = true) : trimStr l = l := by
  rw [trimStr, dropWhile_eq_self_of_all_neg l isWsChar hl,
    dropWhile_eq_self_of_all_neg l.reverse isWsChar
      (by rw [List.all_reverse]; exact hl),
    List.reverse_reverse]

theorem isEmpty_false_of_ne_nil (l : Str) (h : l ≠ []) : l.isEmpty = false := by
  cases l with
  | nil => exact absurd rfl h
  | cons a as => rfl

/-- `ToNumber` of the decimal string of `n` is `n`. -/
theorem jsStringToNumber_natToDecStr (n : Nat) :
    jsStringToNumber (natToDecStr n) = some n := by
  have hgood := natToDecStr_good n
  have hnw : (natToDecStr n).all (fun c => !(isWsChar c)) = true :=
    all_mono _ goodDigit _
      (fun c hc => ((Bool.and_eq_true _ _).mp hc).2) hgood
  have hdg : (natToDecStr n).all isDigitChar = true :=
    all_mono _ goodDigit _
      (fun c hc => ((Bool.and_eq_true _ _).mp hc).1) hgood
  rw [jsStringToNumber]
  simp only [trimStr_eq_self_of_no_ws _ hnw,
    isEmpty_false_of_ne_nil _ (natToDecStr_ne_nil n), hdg, natToDecStr_val n]
  rfl

/-- The loose comparison against the decimal string of `n` holds for
exactly the id `n`. -/
theorem jsLooseEq_natToDecStr (m n : Nat) :
    jsLooseEqIdStr m (natToDecStr n) = true ↔ m = n := by
  rw [jsLooseEqIdStr, jsStringToNumber_natToDecStr n]
  simp only [beq_iff_eq, Option.some.injEq]
  exact eq_comm

/-- C10: for a stored collection with numeric ids, the decimal-string
form of a book's id — the string the page URL carries — locates exactly
that book under the code's loose equality: the comparison holds for
precisely the books with that id, `find?` succeeds, the detail page
shows a book of that id, and `updateStatus` and a confirmed
`deleteBook` both reach their save call rather than `Book not found`. -/
theorem C10_looseEq_decimal_id (books : List Book) (b : Book) (hb : b ∈ books)
    (newStatus : Str) (saveOk : Bool) :
    (∀ x : Book, jsLooseEqIdStr x.id (natToDecStr b.id) = true ↔ x.id = b.id) ∧
    (∃ b', books.find? (fun x => jsLooseEqIdStr x.id (natToDecStr b.id)) = some b' ∧
      b'.id = b.id) ∧
    (∃ b', displayBookDetails (some (natToDecStr b.id)) books =
      DetailOutcome.shown b' ∧ b'.id = b.id) ∧
    (updateStatus (some (natToDecStr b.id)) newStatus books saveOk).toSave.isSome
      = true ∧
    (updateStatus (some (natToDecStr b.id)) newStatus books saveOk).notification ≠
      some Notification.bookNotFound ∧
    (deleteBook (some (natToDecStr b.id)) books true saveOk).toSave.isSome = true := by
  have hne : natToDecStr b.id ≠ [] := natToDecStr_ne_nil b.id
  have hkey : ∀ x : Book,
      jsLooseEqIdStr x.id (natToDecStr b.id) = true ↔ x.id = b.id :=
    fun x => jsLooseEq_natToDecStr x.id b.id
  have hsome : (books.find?
      (fun x => jsLooseEqIdStr x.id (natToDecStr b.id))).isSome = true :=
    List.find?_isSome.mpr ⟨b, hb, (hkey b).mpr rfl⟩
  obtain ⟨b', hf⟩ := Option.isSome_iff_exists.mp hsome
  have hpb' :=
    @List.find?_some Book (fun x => jsLooseEqIdStr x.id (natToDecStr b.id)) b' books hf
  have hb'id : b'.id = b.id := (hkey b').mp hpb'
  have hisome : (books.findIdx?
      (fun x => jsLooseEqIdStr x.id (natToDecStr b.id))).isSome = true := by
    rw [List.findIdx?_isSome, List.any_eq_true]
    exact ⟨b, hb, (hkey b).mpr rfl⟩
  obtain ⟨i, hfi⟩ := Option.isSome_iff_exists.mp hisome
  refine ⟨hkey, ⟨b', hf, hb'id⟩, ?_, ?_, ?_, ?_⟩
  · rw [displayBookDetails, if_neg (by simp [truthyStr_some_of_ne _ hne])]
    simp only [Option.getD_some]
    rw [hf]
    exact ⟨b', rfl, hb'id⟩
  · rw [updateStatus_found (natToDecStr b.id) hne newStatus books saveOk i hfi]
    rfl
  · rw [updateStatus_found (natToDecStr b.id) hne newStatus books saveOk i hfi]
    intro hc
    rw [Option.some.injEq] at hc
    cases saveOk with
    | false => exact Notification.noConfusion hc
    | true => exact Notification.noConfusion hc
  · rw [deleteBook_confirmed_found (natToDecStr b.id) hne books saveOk b' hf]
    cases saveOk <;> rfl

/-- Witness for C10 at a concrete input: the book with numeric id 1 is
located through the URL string "1". -/
theorem C10_looseEq_decimal_id_witness :
    dune ∈ ([dune] : List Book) ∧
      (jsLooseEqIdStr dune.id (natToDecStr dune.id) = true ↔ dune.id = dune.id) :=
  ⟨by decide,
    (C10_looseEq_decimal_id [dune] dune (by decide) ['r'] true).1 dune⟩
